import Mathlib

set_option autoImplicit false

/-!
Verification of `parsnip/plotting.py` against its specification.

The four plotting functions are shallowly embedded as pure functions that
return the list of drawing commands issued to the plotting backend
(`plot`, `errorbar`, `fill_between`, `scatter`, `set_ylim`, per-cell text
annotations), with real-valued data modelled over `ℚ`.  The numpy
reductions used by the source (`np.median`, `np.percentile` with linear
interpolation, `np.max`) are embedded exactly.
-/

/-! ## Numeric helpers: exact embeddings of the numpy reductions -/

/-- Insert a rational into a sorted list (ascending). -/
def insertSorted (x : ℚ) : List ℚ → List ℚ
  | [] => [x]
  | y :: t => if x ≤ y then x :: y :: t else y :: insertSorted x t

/-- Sorting of the values of a 1-d array, as performed by `np.sort` before a
median or percentile is taken. -/
def sortRat (l : List ℚ) : List ℚ := l.foldr insertSorted []

/-- Embedding of `np.max` on a 1-d array (the source only applies it to
nonempty arrays; the empty case is given the junk value 0). -/
def npMax : List ℚ → ℚ
  | [] => 0
  | x :: t => t.foldl max x

/-- Embedding of `np.median` on a 1-d array: middle element of the sorted
values, or the mean of the two middle elements for even length. -/
def npMedian (xs : List ℚ) : ℚ :=
  let s := sortRat xs
  let n := xs.length
  if n % 2 = 1 then s.getD (n / 2) 0
  else (s.getD (n / 2 - 1) 0 + s.getD (n / 2) 0) / 2

/-- Embedding of `np.percentile q` on a 1-d array with numpy's default
linear interpolation: with `h = q/100 * (n-1)`, interpolate between the
sorted values at positions `⌊h⌋` and `⌊h⌋ + 1`. -/
def npPercentile (q : ℚ) (xs : List ℚ) : ℚ :=
  let s := sortRat xs
  let h : ℚ := q * ((xs.length : ℚ) - 1) / 100
  let k : ℤ := ⌊h⌋
  let lo := s.getD k.toNat 0
  let hi := s.getD (k.toNat + 1) 0
  lo + (h - (k : ℚ)) * (hi - lo)

/-- Embedding of a numpy axis-0 reduction (`np.median(m, axis=0)`,
`np.percentile(m, q, axis=0)`) over a rectangular 2-d array stored as a
list of rows: apply `f` to each column. -/
def reduceAxis0 (f : List ℚ → ℚ) (m : List (List ℚ)) : List ℚ :=
  (List.range ((m.headD []).length)).map (fun t => f (m.map (fun r => r.getD t 0)))

/-! ## Data model for `plot_light_curve` and `plot_spectrum` -/

/-- One observation row of the light-curve table: `time`, `band`, `flux`,
`fluxerr`. -/
structure Obs where
  time : ℚ
  band : String
  flux : ℚ
  fluxerr : ℚ
  deriving DecidableEq

/-- The light-curve table plus its `parsnip_preprocessed` metadata flag. -/
structure LightCurve where
  obs : List Obs
  preprocessed : Bool

/-- The external model object, as a black box with the input/output contract
the source relies on: a band list, a prediction time axis, and the flux
array returned by `predict_light_curve` — shaped `(bands, times)` when
`count == 0` and `(draws, bands, times)` when `count > 0`. -/
structure Model where
  bands : List String
  predTimes : List ℚ
  predSingle : List (List ℚ)
  predMulti : Nat → List (List (List ℚ))

/-- A drawing command issued to the axes while plotting a light curve or a
spectrum.  A `none` label corresponds to matplotlib's auto-generated label,
which is excluded from the legend. -/
inductive PlotCmd where
  | errorbarC (x y yerr : List ℚ) (label : Option String)
  | lineC (x y : List ℚ) (label : Option String)
  | fillC (x lo hi : List ℚ)
  | ylimC (lo hi : ℚ)
  deriving DecidableEq

/-- The legend label carried by a command (`fill_between` is called without
a label, `set_ylim` is not an artist). -/
def cmdLabel : PlotCmd → Option String
  | .errorbarC _ _ _ l => l
  | .lineC _ _ l => l
  | .fillC _ _ _ => none
  | .ylimC _ _ => none

/-- Labels appearing in `ax.legend()`: the labels of the labelled artists,
in drawing order. -/
def legendLabels (cmds : List PlotCmd) : List String := cmds.filterMap cmdLabel

/-- Insert a band name into a sorted list (ascending). -/
def insertSortedStr (x : String) : List String → List String
  | [] => [x]
  | y :: t => if x ≤ y then x :: y :: t else y :: insertSortedStr x t

/-- Sorting of band names, as done by astropy's `group_by`. -/
def sortStr (l : List String) : List String := l.foldr insertSortedStr []

/-- Embedding of `light_curve.group_by('band').groups`: the distinct band
names in sorted order, each paired with its rows (in table order). -/
def groupByBand (obs : List Obs) : List (String × List Obs) :=
  (sortStr (obs.map Obs.band).dedup).map
    (fun b => (b, obs.filter (fun o => o.band == b)))

/-- The band groups the observation loop actually draws (the source skips
empty groups). -/
def drawnGroups (obs : List Obs) : List (String × List Obs) :=
  (groupByBand obs).filter (fun g => !g.2.isEmpty)

/-- The `errorbar` commands of the observation loop, one per drawn band,
labelled with the band name. -/
def obsCmds (obs : List Obs) : List PlotCmd :=
  (drawnGroups obs).map
    (fun g => .errorbarC (g.2.map Obs.time) (g.2.map Obs.flux) (g.2.map Obs.fluxerr)
      (some g.1))

/-- The `used_bandpasses` list accumulated by the observation loop. -/
def usedBandpasses (obs : List Obs) : List String := (drawnGroups obs).map Prod.fst

/-- The model bands that the model loop does not skip, with their index in
`model.settings['bands']`: a band is skipped when it was not observed and
`show_missing_bandpasses` is off. -/
def shownBandIdxs (m : Model) (used : List String) (smb : Bool) : List (Nat × String) :=
  m.bands.enum.filter (fun p => smb || used.contains p.2)

/-- `model_flux[:, band_idx]` for the multi-draw flux array: one time series
per draw. -/
def bandColumn (m : Model) (count : Nat) (idx : Nat) : List (List ℚ) :=
  (m.predMulti count).map (fun d => d.getD idx [])

/-- The drawing commands of one iteration of the model loop, per prediction
mode.  In the raw-draw mode the source passes no label to `ax.plot`. -/
def bandModelCmds (m : Model) (count : Nat) (sub : Bool) (percentile : ℚ)
    (label : Option String) (idx : Nat) : List PlotCmd :=
  if count = 0 then
    [.lineC m.predTimes (m.predSingle.getD idx []) label]
  else if sub then
    [.lineC m.predTimes (reduceAxis0 npMedian (bandColumn m count idx)) label,
     .fillC m.predTimes
       (reduceAxis0 (npPercentile ((100 - percentile) / 2)) (bandColumn m count idx))
       (reduceAxis0 (npPercentile (100 - (100 - percentile) / 2)) (bandColumn m count idx))]
  else
    (bandColumn m count idx).map (fun dr => .lineC m.predTimes dr none)

/-- `band_max_model` of one iteration of the model loop: per-band max of the
single prediction, per-band max of the median curve, or — in the raw-draw
mode — `np.max(model_flux)` over the whole array. -/
def bandMaxModel (m : Model) (count : Nat) (sub : Bool) (idx : Nat) : ℚ :=
  if count = 0 then npMax (m.predSingle.getD idx [])
  else if sub then npMax (reduceAxis0 npMedian (bandColumn m count idx))
  else npMax ((m.predMulti count).flatten.flatten)

/-- The final value of the `max_model` accumulator: it starts at `0.` and
takes `max` with `band_max_model` over the bands that are not skipped. -/
def maxModel (m : Model) (count : Nat) (sub : Bool) (shown : List (Nat × String)) : ℚ :=
  shown.foldl (fun acc p => max acc (bandMaxModel m count sub p.1)) 0

/-- The model loop: `labelModel` is the `label_model` flag, true until the
first non-skipped band has been drawn. -/
def modelCmds (m : Model) (count : Nat) (sub : Bool) (percentile : ℚ) :
    List (Nat × String) → Bool → List PlotCmd
  | [], _ => []
  | q :: rest, labelModel =>
      bandModelCmds m count sub percentile
        (if labelModel then some "ParSNIP Model" else none) q.1
        ++ modelCmds m count sub percentile rest false

/-- The light curve actually plotted: the input is run through the
preprocessing collaborator when it is not marked preprocessed and a model
is supplied. -/
def effectiveLC (preprocess : LightCurve → LightCurve) (lc0 : LightCurve)
    (hasModel : Bool) : LightCurve :=
  if !lc0.preprocessed && hasModel then preprocess lc0 else lc0

/-- Embedding of `plot_light_curve`: the commands drawn on the axes, in
order.  `sub` is `show_uncertainty_bands`, `smb` is
`show_missing_bandpasses`. -/
def plot_light_curve (preprocess : LightCurve → LightCurve) (lc0 : LightCurve)
    (model : Option Model) (count : Nat) (sub smb : Bool) (percentile : ℚ) :
    List PlotCmd :=
  let lc := effectiveLC preprocess lc0 model.isSome
  let oc := obsCmds lc.obs
  match model with
  | none => oc
  | some m =>
      let shown := shownBandIdxs m (usedBandpasses lc.obs) smb
      oc ++ modelCmds m count sub percentile shown true
        ++ [.ylimC ((-0.2 : ℚ) * maxModel m count sub shown)
             ((1.2 : ℚ) * maxModel m count sub shown)]

/-- Embedding of `plot_spectrum`: `single` is the spectrum returned by
`predict_spectrum` for `count == 0` (shape `(wavelength,)`), `multi` the
draws array for `count > 0` (shape `(draws, wavelength)`). -/
def plot_spectrum (modelWave : List ℚ) (single : List ℚ) (multi : List (List ℚ))
    (count : Nat) (show_bands : Bool) (percentile : ℚ) (label : Option String) :
    List PlotCmd :=
  if count = 0 then
    [.lineC modelWave single label]
  else if show_bands then
    [.lineC modelWave (reduceAxis0 npMedian multi) label,
     .fillC modelWave
       (reduceAxis0 (npPercentile ((100 - percentile) / 2)) multi)
       (reduceAxis0 (npPercentile (100 - (100 - percentile) / 2)) multi)]
  else
    multi.map (fun dr => .lineC modelWave dr none)

/-- The `(lo, hi)` pairs of the `set_ylim` calls in a command list. -/
def ylims (cmds : List PlotCmd) : List (ℚ × ℚ) :=
  cmds.filterMap (fun c => match c with | .ylimC a b => some (a, b) | _ => none)

/-- The y-limits in force after rendering: those of the last `set_ylim`. -/
def lastYlim (cmds : List PlotCmd) : Option (ℚ × ℚ) := (ylims cmds).getLast?

/-! ## Data model for `plot_confusion_matrix` -/

/-- Embedding of pandas `idxmax` on one row of the score table: the column
name at the first occurrence of the row's maximum score. -/
def idxmaxRow (cols : List String) (r : List ℚ) : String :=
  cols.getD (r.findIdx (fun v => decide (v = npMax r))) ""

/-- The number of samples with true label `a` and predicted label `b`:
one entry of the unnormalized confusion matrix. -/
def cmCountP (pairs : List (String × String)) (a b : String) : Nat :=
  (pairs.filter (fun pr => pr.1 == a && pr.2 == b)).length

/-- One row of counts of the confusion matrix computed with
`labels=class_names`: true label `a` against each class in order. -/
def cmRowCounts (pairs : List (String × String)) (cols : List String) (a : String) :
    List Nat :=
  cols.map (cmCountP pairs a)

/-- One row of the confusion matrix with `normalize='true'`: the counts
divided by the row sum. -/
def cmNormRow (pairs : List (String × String)) (cols : List String) (a : String) :
    List ℚ :=
  (cmRowCounts pairs cols a).map
    (fun (c : Nat) => (c : ℚ) / ((cmRowCounts pairs cols a).sum : ℚ))

/-- Embedding of `sklearn.metrics.confusion_matrix(trueL, predL,
labels=cols, normalize='true')`. -/
def confusionMatrixNorm (trueL predL : List String) (cols : List String) :
    List (List ℚ) :=
  cols.map (fun a => cmNormRow (trueL.zip predL) cols a)

/-- The rendered output of `plot_confusion_matrix`: the true labels after
the one-vs-rest collapsing step, the per-row predicted labels, the
row-normalized matrix passed to `imshow`, and the per-cell text
annotations `(i, j, color)`. -/
structure CMOutput where
  usedLabels : List String
  preds : List String
  matrix : List (List ℚ)
  texts : List (Nat × Nat × String)

/-- Embedding of `plot_confusion_matrix`.  `labels` is
`predictions['label']`, `cols` the columns of the classification table,
`scores` its rows (aligned with `labels`). -/
def plot_confusion_matrix (labels cols : List String) (scores : List (List ℚ)) :
    CMOutput :=
  let used :=
    if cols.length = 2 ∧ cols.getD 0 "" = "Other" then
      labels.map (fun l => if l = cols.getD 1 "" then l else "Other")
    else labels
  let prds := scores.map (idxmaxRow cols)
  let cm := confusionMatrixNorm used prds cols
  let thresh := npMax cm.flatten / 2
  let texts :=
    ((List.range cm.length).map (fun i =>
      (List.range ((cm.getD i []).length)).map (fun j =>
        (i, j, if (cm.getD i []).getD j 0 > thresh then "white" else "black")))).flatten
  ⟨used, prds, cm, texts⟩

/-! ## Data model for `plot_representation` -/

/-- One row of the predictions table for the representation plot: the
`label` column and the per-dimension `s{idx}` and `s{idx}_error` columns. -/
structure RepRow where
  label : String
  s : Nat → ℚ
  sErr : Nat → ℚ

/-- A drawing command issued while plotting a representation.  `axId`
identifies the panel (`0` for the main/2-d panel, `1` and `2` for the
extra panels of the 3-d layout).  For an `errorbar` call the final alpha
values of the returned cap and bar artists are recorded. -/
inductive RepCmd where
  | scatterC (axId : Nat) (x y : List ℚ) (color : String) (label : String)
  | errorbarC3 (axId : Nat) (x y xerr yerr : List ℚ) (color : String) (label : String)
      (markerAlpha : Option ℚ) (barsAlpha capsAlpha : List (Option ℚ))

/-- The cap and bar artists returned by `ax.errorbar`, identified by their
alpha values (`none` = alpha unset).  With the default
`rcParams['errorbar.capsize'] = 0` — the source never passes `capsize` —
no cap artists are created; one bar collection is created per error
direction supplied. -/
structure ErrArtists where
  caps : List (Option ℚ)
  bars : List (Option ℚ)

/-- The artists created by an `errorbar` call. -/
def errorbarArtists (capsize : Nat) (hasXerr hasYerr : Bool) : ErrArtists :=
  { caps := List.replicate
      (if capsize = 0 then 0 else (if hasXerr then 2 else 0) + (if hasYerr then 2 else 0))
      none,
    bars := (if hasXerr then [none] else []) ++ (if hasYerr then [none] else []) }

/-- Embedding of `[bar.set_alpha(0.3) for bar in bars]`. -/
def setAllAlpha (a : ℚ) (l : List (Option ℚ)) : List (Option ℚ) :=
  l.map (fun _ => some a)

/-- The fixed class-to-color map of `plot_representation`. -/
def colorMap : List (String × String) :=
  [("SNIa", "C0"), ("SNIax", "C9"), ("SNIa-91bg", "lightgreen"),
   ("SLSN", "C2"), ("SNII", "C1"), ("SNIIn", "C3"), ("SNIbc", "C4"),
   ("KN", "C5"),
   ("CaRT", "C3"), ("ILOT", "C6"), ("PISN", "C8"), ("TDE", "C7"),
   ("FELT", "C5"), ("Peculiar", "C5")]

/-- Sequencing of fallible per-item work in a Python `for` loop: stop at the
first raised error. -/
def mapExcept {α β : Type _} (f : α → Except String β) : List α → Except String (List β)
  | [] => .ok []
  | a :: t =>
    match f a with
    | .error e => .error e
    | .ok b =>
      match mapExcept f t with
      | .error e => .error e
      | .ok bs => .ok (b :: bs)

/-- `predictions[~mask]`: the rows excluded by the boolean mask. -/
def maskedOut (preds : List RepRow) (mk : List Bool) : List RepRow :=
  ((preds.zip mk).filter (fun pr => !pr.2)).map Prod.fst

/-- `predictions[mask]`: the rows included by the boolean mask. -/
def maskedIn (preds : List RepRow) (mk : List Bool) : List RepRow :=
  ((preds.zip mk).filter (fun pr => pr.2)).map Prod.fst

/-- `valid_predictions`: the whole table when no mask is given, else the
mask-included rows. -/
def validRows (preds : List RepRow) : Option (List Bool) → List RepRow
  | some mk => maskedIn preds mk
  | none => preds

/-- The scatter command for the masked-out points (black, label
`'Unknown'`), drawn before the per-class loop; nothing when no mask is
given. -/
def maskScatter (preds : List RepRow) (mask : Option (List Bool))
    (xidx yidx axId : Nat) : List RepCmd :=
  match mask with
  | some mk =>
      [.scatterC axId ((maskedOut preds mk).map (fun r => r.s xidx))
        ((maskedOut preds mk).map (fun r => r.s yidx)) "k" "Unknown"]
  | none => []

/-- One iteration of the per-class loop: filter the rows of the class,
look the class up in the color map (a missing key raises), and draw the
first `max_count` rows of each of the four columns with error bars whose
bar artists are then set to alpha `0.3`. -/
def classCmd (valid : List RepRow) (xidx yidx axId max_count : Nat) (tn : String) :
    Except String RepCmd :=
  let tp := valid.filter (fun r => r.label == tn)
  match colorMap.lookup tn with
  | none => .error ("KeyError: " ++ tn)
  | some color =>
      .ok (.errorbarC3 axId
        ((tp.map (fun r => r.s xidx)).take max_count)
        ((tp.map (fun r => r.s yidx)).take max_count)
        ((tp.map (fun r => r.sErr xidx)).take max_count)
        ((tp.map (fun r => r.sErr yidx)).take max_count)
        color tn none
        (setAllAlpha (0.3 : ℚ) (errorbarArtists 0 true true).bars)
        (errorbarArtists 0 true true).caps)

/-- The commands drawn on one panel: the masked-out scatter, then the
per-class errorbars. -/
def panelCmds (preds : List RepRow) (plot_labels : List String)
    (mask : Option (List Bool)) (xidx yidx axId max_count : Nat) :
    Except String (List RepCmd) :=
  match mapExcept (classCmd (validRows preds mask) xidx yidx axId max_count)
      plot_labels with
  | .error e => .error e
  | .ok cls => .ok (maskScatter preds mask xidx yidx axId ++ cls)

/-- The `(xidx, yidx, panel)` triples iterated over: one panel in 2-d mode,
the three linked panels `(idx1,idx2)`, `(idx1,idx3)`, `(idx3,idx2)` in 3-d
mode. -/
def plotVals (idx1 idx2 : Nat) : Option Nat → List (Nat × Nat × Nat)
  | some i3 => [(idx1, idx2, 0), (idx1, i3, 1), (i3, idx2, 2)]
  | none => [(idx1, idx2, 0)]

/-- Embedding of `plot_representation`.  `axGiven` records whether a
pre-existing axes object was passed via `ax`; the conflict check between
3-d mode and a supplied axes is the first thing the source does, before
any figure is created, so the error branch carries no drawing commands. -/
def plot_representation (preds : List RepRow) (plot_labels : List String)
    (mask : Option (List Bool)) (idx1 idx2 : Nat) (idx3 : Option Nat)
    (max_count : Nat) (axGiven : Bool) : Except String (List RepCmd) :=
  if idx3.isSome && axGiven then
    .error "Can\x27t make 3D plot with prespecified axis."
  else
    match mapExcept
        (fun pv => panelCmds preds plot_labels mask pv.1 pv.2.1 pv.2.2 max_count)
        (plotVals idx1 idx2 idx3) with
    | .error e => .error e
    | .ok ls => .ok ls.flatten

/-! ## Spec-side definitions

These follow the wording of the specification's claims, to be compared
with the embeddings above. -/

/-- The claim's reading of the y-limit scale for one shown band: the
maximum of the series actually drawn for that band — in raw-draw mode,
the raw draws of that band only. -/
def specSeriesMax (m : Model) (count : Nat) (sub : Bool) (idx : Nat) : ℚ :=
  if count = 0 then npMax (m.predSingle.getD idx [])
  else if sub then npMax (reduceAxis0 npMedian (bandColumn m count idx))
  else npMax ((bandColumn m count idx).flatten)

/-- The claim's y-limit scale `M`: the maximum across the shown bands of
the per-band drawn-series maxima. -/
def specShownMax (m : Model) (count : Nat) (sub : Bool)
    (shown : List (Nat × String)) : ℚ :=
  npMax (shown.map (fun pr => specSeriesMax m count sub pr.1))

/-! ## General helper lemmas -/

theorem mapExcept_ok_forall {α β : Type _} {f : α → Except String β} {l : List α}
    {out : List β} (h : mapExcept f l = .ok out) :
    ∀ a ∈ l, ∃ b ∈ out, f a = .ok b := by
  induction l generalizing out with
  | nil => intro a ha; cases ha
  | cons x t ih =>
    intro a ha
    rw [mapExcept] at h
    cases hfx : f x with
    | error e => rw [hfx] at h; cases h
    | ok b =>
      rw [hfx] at h
      cases hmt : mapExcept f t with
      | error e => rw [hmt] at h; cases h
      | ok bs =>
        rw [hmt] at h
        injection h with h
        subst h
        rcases List.mem_cons.mp ha with rfl | hat
        · exact ⟨b, List.mem_cons_self _ _, hfx⟩
        · obtain ⟨b', hb', hfb'⟩ := ih hmt a hat
          exact ⟨b', List.mem_cons_of_mem _ hb', hfb'⟩

theorem mapExcept_ok_rev {α β : Type _} {f : α → Except String β} {l : List α}
    {out : List β} (h : mapExcept f l = .ok out) :
    ∀ b ∈ out, ∃ a ∈ l, f a = .ok b := by
  induction l generalizing out with
  | nil =>
    rw [mapExcept] at h
    injection h with h
    subst h
    intro b hb; cases hb
  | cons x t ih =>
    intro b hb
    rw [mapExcept] at h
    cases hfx : f x with
    | error e => rw [hfx] at h; cases h
    | ok b0 =>
      rw [hfx] at h
      cases hmt : mapExcept f t with
      | error e => rw [hmt] at h; cases h
      | ok bs =>
        rw [hmt] at h
        injection h with h
        subst h
        rcases List.mem_cons.mp hb with rfl | hbt
        · exact ⟨x, List.mem_cons_self _ _, hfx⟩
        · obtain ⟨a, ha, hfa⟩ := ih hmt b hbt
          exact ⟨a, List.mem_cons_of_mem _ ha, hfa⟩

theorem le_foldl_max (l : List ℚ) : ∀ init : ℚ,
    init ≤ l.foldl max init ∧ ∀ x ∈ l, x ≤ l.foldl max init := by
  induction l with
  | nil => intro init; exact ⟨le_refl _, fun x hx => absurd hx (List.not_mem_nil x)⟩
  | cons y t ih =>
    intro init
    obtain ⟨h1, h2⟩ := ih (max init y)
    refine ⟨le_trans (le_max_left _ _) h1, ?_⟩
    intro x hx
    rcases List.mem_cons.mp hx with rfl | hxt
    · exact le_trans (le_max_right init x) h1
    · exact h2 x hxt

theorem foldl_max_mem (l : List ℚ) : ∀ init : ℚ, l.foldl max init ∈ init :: l := by
  induction l with
  | nil => intro init; exact List.mem_singleton_self init
  | cons y t ih =>
    intro init
    have := ih (max init y)
    rcases List.mem_cons.mp this with h | h
    · rw [List.foldl_cons, h]
      rcases max_choice init y with h' | h'
      · rw [h']; exact List.mem_cons_self _ _
      · rw [h']; exact List.mem_cons_of_mem _ (List.mem_cons_self _ _)
    · exact List.mem_cons_of_mem _ (List.mem_cons_of_mem _ h)

theorem le_npMax {l : List ℚ} {x : ℚ} (hx : x ∈ l) : x ≤ npMax l := by
  cases l with
  | nil => cases hx
  | cons y t =>
    rcases List.mem_cons.mp hx with rfl | hxt
    · exact (le_foldl_max t x).1
    · exact (le_foldl_max t y).2 x hxt

theorem npMax_mem {l : List ℚ} (h : l ≠ []) : npMax l ∈ l := by
  cases l with
  | nil => exact absurd rfl h
  | cons y t =>
    have := foldl_max_mem t y
    exact this

/-! ## Claim C8: 3-d mode with a supplied axes raises before drawing -/

/-- C8: calling `plot_representation` with `idx3` set and a pre-existing
axes supplied returns the usage error raised by the source before any
figure or axes is created — the result carries no drawing command, so the
plotting state is unchanged. -/
theorem C8_threeD_with_axes_raises (preds : List RepRow) (plot_labels : List String)
    (mask : Option (List Bool)) (idx1 idx2 k max_count : Nat) :
    plot_representation preds plot_labels mask idx1 idx2 (some k) max_count true =
      .error "Can\x27t make 3D plot with prespecified axis." := by
  rw [plot_representation]
  rfl

/-! ## Inversion lemmas for `plot_representation` -/

theorem plot_representation_ok_panels {preds : List RepRow} {pl : List String}
    {mask : Option (List Bool)} {i1 i2 : Nat} {i3 : Option Nat} {mc : Nat} {ax : Bool}
    {cmds : List RepCmd}
    (h : plot_representation preds pl mask i1 i2 i3 mc ax = .ok cmds) :
    ∃ ls, mapExcept (fun pv => panelCmds preds pl mask pv.1 pv.2.1 pv.2.2 mc)
        (plotVals i1 i2 i3) = .ok ls ∧ cmds = ls.flatten := by
  rw [plot_representation] at h
  cases hc : (i3.isSome && ax) with
  | true => simp [hc] at h
  | false =>
    simp only [hc, Bool.false_eq_true, if_false] at h
    cases hls : mapExcept (fun pv => panelCmds preds pl mask pv.1 pv.2.1 pv.2.2 mc)
        (plotVals i1 i2 i3) with
    | error e => rw [hls] at h; cases h
    | ok ls =>
      rw [hls] at h
      injection h with h
      exact ⟨ls, rfl, h.symm⟩

theorem panelCmds_ok_cls {preds : List RepRow} {pl : List String}
    {mask : Option (List Bool)} {xidx yidx axId mc : Nat} {out : List RepCmd}
    (h : panelCmds preds pl mask xidx yidx axId mc = .ok out) :
    ∃ cls, mapExcept (classCmd (validRows preds mask) xidx yidx axId mc) pl = .ok cls
      ∧ out = maskScatter preds mask xidx yidx axId ++ cls := by
  rw [panelCmds] at h
  cases hcls : mapExcept (classCmd (validRows preds mask) xidx yidx axId mc) pl with
  | error e => rw [hcls] at h; cases h
  | ok cls =>
    rw [hcls] at h
    injection h with h
    exact ⟨cls, rfl, h.symm⟩

theorem classCmd_ok {valid : List RepRow} {xidx yidx axId mc : Nat} {tn : String}
    {cmd : RepCmd} (h : classCmd valid xidx yidx axId mc tn = .ok cmd) :
    ∃ color, colorMap.lookup tn = some color ∧
      cmd = RepCmd.errorbarC3 axId
        (((valid.filter (fun r => r.label == tn)).map (fun r => r.s xidx)).take mc)
        (((valid.filter (fun r => r.label == tn)).map (fun r => r.s yidx)).take mc)
        (((valid.filter (fun r => r.label == tn)).map (fun r => r.sErr xidx)).take mc)
        (((valid.filter (fun r => r.label == tn)).map (fun r => r.sErr yidx)).take mc)
        color tn none (setAllAlpha (0.3 : ℚ) (errorbarArtists 0 true true).bars)
        (errorbarArtists 0 true true).caps := by
  simp only [classCmd] at h
  cases hlook : colorMap.lookup tn with
  | none => rw [hlook] at h; cases h
  | some color =>
    rw [hlook] at h
    injection h with h
    exact ⟨color, rfl, h.symm⟩

theorem zip_countP_snd {α : Type _} (preds : List α) (mk : List Bool)
    (hlen : mk.length = preds.length) (p : Bool → Bool) :
    (preds.zip mk).countP (fun pr => p pr.2) = mk.countP p := by
  induction preds generalizing mk with
  | nil =>
    cases mk with
    | nil => rfl
    | cons b bt => cases hlen
  | cons x t ih =>
    cases mk with
    | nil => cases hlen
    | cons b bt =>
      rw [List.zip_cons_cons, List.countP_cons, List.countP_cons]
      rw [ih bt (by simpa using hlen)]

/-! ## Claim C9: per-class truncation to the first `max_count` rows -/

/-- C9: for every class in `plot_labels` and every panel, the points drawn
for that class are exactly the first `min(max_count, n)` matching rows of
the (mask-restricted) table in table order, with the same truncation
applied to the x, y, x-error and y-error columns. -/
theorem C9_class_points_truncated {preds : List RepRow} {pl : List String}
    {mask : Option (List Bool)} {i1 i2 : Nat} {i3 : Option Nat} {mc : Nat} {ax : Bool}
    {cmds : List RepCmd}
    (h : plot_representation preds pl mask i1 i2 i3 mc ax = .ok cmds) :
    ∀ tn ∈ pl, ∀ pv ∈ plotVals i1 i2 i3,
      ∃ color, colorMap.lookup tn = some color ∧
        RepCmd.errorbarC3 pv.2.2
          ((((validRows preds mask).filter (fun r => r.label == tn)).take mc).map
            (fun r => r.s pv.1))
          ((((validRows preds mask).filter (fun r => r.label == tn)).take mc).map
            (fun r => r.s pv.2.1))
          ((((validRows preds mask).filter (fun r => r.label == tn)).take mc).map
            (fun r => r.sErr pv.1))
          ((((validRows preds mask).filter (fun r => r.label == tn)).take mc).map
            (fun r => r.sErr pv.2.1))
          color tn none (setAllAlpha (0.3 : ℚ) (errorbarArtists 0 true true).bars)
          (errorbarArtists 0 true true).caps ∈ cmds
        ∧ (((validRows preds mask).filter (fun r => r.label == tn)).take mc).length
            = min mc ((validRows preds mask).filter (fun r => r.label == tn)).length := by
  intro tn htn pv hpv
  obtain ⟨ls, hls, rfl⟩ := plot_representation_ok_panels h
  obtain ⟨pcl, hpclmem, hpok⟩ := mapExcept_ok_forall hls pv hpv
  obtain ⟨cls, hcls, rfl⟩ := panelCmds_ok_cls hpok
  obtain ⟨cmd, hcmem, hcok⟩ := mapExcept_ok_forall hcls tn htn
  obtain ⟨color, hlook, rfl⟩ := classCmd_ok hcok
  refine ⟨color, hlook, ?_, List.length_take _ _⟩
  rw [List.map_take, List.map_take, List.map_take, List.map_take]
  exact List.mem_flatten.mpr
    ⟨_, hpclmem, List.mem_append.mpr (Or.inr hcmem)⟩

/-- Concrete table for the C9 witness: three rows of class `SNIa`. -/
def predsC9 : List RepRow :=
  [⟨"SNIa", fun _ => 1, fun _ => 1⟩, ⟨"SNIa", fun _ => 2, fun _ => 2⟩,
   ⟨"SNIa", fun _ => 3, fun _ => 3⟩]

/-- The commands `plot_representation` issues for `predsC9` with
`max_count = 2`. -/
def outC9 : List RepCmd :=
  [RepCmd.errorbarC3 0 [1, 2] [1, 2] [1, 2] [1, 2] "C0" "SNIa" none
    (setAllAlpha (0.3 : ℚ) (errorbarArtists 0 true true).bars)
    (errorbarArtists 0 true true).caps]

/-- Witness for C9: with `max_count = 2` and 3 matching rows, exactly the
first 2 rows are drawn. -/
theorem C9_witness :
    ∃ color, colorMap.lookup "SNIa" = some color ∧
      RepCmd.errorbarC3 0
        ((((validRows predsC9 none).filter (fun r => r.label == "SNIa")).take 2).map
          (fun r => r.s 1))
        ((((validRows predsC9 none).filter (fun r => r.label == "SNIa")).take 2).map
          (fun r => r.s 2))
        ((((validRows predsC9 none).filter (fun r => r.label == "SNIa")).take 2).map
          (fun r => r.sErr 1))
        ((((validRows predsC9 none).filter (fun r => r.label == "SNIa")).take 2).map
          (fun r => r.sErr 2))
        color "SNIa" none (setAllAlpha (0.3 : ℚ) (errorbarArtists 0 true true).bars)
        (errorbarArtists 0 true true).caps ∈ outC9
      ∧ (((validRows predsC9 none).filter (fun r => r.label == "SNIa")).take 2).length
          = min 2 ((validRows predsC9 none).filter (fun r => r.label == "SNIa")).length :=
  C9_class_points_truncated
    (h := (rfl : plot_representation predsC9 ["SNIa"] none 1 2 none 2 false = .ok outC9))
    "SNIa" (List.mem_singleton_self _) (1, 2, 0) (by decide)

/-! ## Claim C10: masked-out points are complete, untruncated, bar-free -/

/-- C10: with a mask supplied, the black `'Unknown'` scatter of each panel
contains exactly the rows excluded by the mask — `max_count` is never
applied to them — and no error-bar command is drawn for them. -/
theorem C10_masked_points_complete {preds : List RepRow} {pl : List String}
    {mk : List Bool} {i1 i2 : Nat} {i3 : Option Nat} {mc : Nat} {ax : Bool}
    {cmds : List RepCmd}
    (hlen : mk.length = preds.length)
    (h : plot_representation preds pl (some mk) i1 i2 i3 mc ax = .ok cmds) :
    (∀ pv ∈ plotVals i1 i2 i3,
      RepCmd.scatterC pv.2.2 ((maskedOut preds mk).map (fun r => r.s pv.1))
          ((maskedOut preds mk).map (fun r => r.s pv.2.1)) "k" "Unknown" ∈ cmds
      ∧ ((maskedOut preds mk).map (fun r => r.s pv.1)).length
          = mk.countP (fun b => !b))
    ∧ ∀ axId x y xe ye color lb ma ba ca,
        RepCmd.errorbarC3 axId x y xe ye color lb ma ba ca ∈ cmds → lb ≠ "Unknown" := by
  obtain ⟨ls, hls, rfl⟩ := plot_representation_ok_panels h
  constructor
  · intro pv hpv
    obtain ⟨pcl, hpclmem, hpok⟩ := mapExcept_ok_forall hls pv hpv
    obtain ⟨cls, hcls, rfl⟩ := panelCmds_ok_cls hpok
    constructor
    · refine List.mem_flatten.mpr ⟨_, hpclmem, List.mem_append.mpr (Or.inl ?_)⟩
      simp [maskScatter]
    · rw [List.length_map, maskedOut, List.length_map,
        ← List.countP_eq_length_filter]
      exact zip_countP_snd preds mk hlen (fun b => !b)
  · intro axId x y xe ye color lb ma ba ca hmem
    obtain ⟨sub, hsubmem, hcmdmem⟩ := List.mem_flatten.mp hmem
    obtain ⟨pv, hpv, hpok⟩ := mapExcept_ok_rev hls sub hsubmem
    obtain ⟨cls, hcls, rfl⟩ := panelCmds_ok_cls hpok
    rcases List.mem_append.mp hcmdmem with hm | hm
    · simp [maskScatter] at hm
    · obtain ⟨tn, htn, hcok⟩ := mapExcept_ok_rev hcls _ hm
      obtain ⟨color', hlook, heq⟩ := classCmd_ok hcok
      injection heq with _ _ _ _ _ _ hlb
      subst hlb
      intro hUnknown
      rw [hUnknown] at hlook
      have : colorMap.lookup "Unknown" = none := rfl
      rw [this] at hlook
      cases hlook

/-- Concrete table for the C10 witness: the mask excludes the second row. -/
def predsC10 : List RepRow :=
  [⟨"SNIa", fun _ => 1, fun _ => 1⟩, ⟨"SNIa", fun _ => 2, fun _ => 2⟩]

/-- The commands `plot_representation` issues for `predsC10` with mask
`[true, false]`. -/
def outC10 : List RepCmd :=
  [RepCmd.scatterC 0 [2] [2] "k" "Unknown",
   RepCmd.errorbarC3 0 [1] [1] [1] [1] "C0" "SNIa" none
     (setAllAlpha (0.3 : ℚ) (errorbarArtists 0 true true).bars)
     (errorbarArtists 0 true true).caps]

/-- Witness for C10 at a concrete input. -/
theorem C10_witness :
    (RepCmd.scatterC 0 ((maskedOut predsC10 [true, false]).map (fun r => r.s 1))
        ((maskedOut predsC10 [true, false]).map (fun r => r.s 2)) "k" "Unknown"
      ∈ outC10)
    ∧ ((maskedOut predsC10 [true, false]).map (fun r => r.s 1)).length
        = [true, false].countP (fun b => !b)
    ∧ "SNIa" ≠ "Unknown" :=
  have main := @C10_masked_points_complete predsC10 ["SNIa"] [true, false] 1 2 none
    1000 false outC10 rfl rfl
  ⟨(main.1 (1, 2, 0) (by decide)).1, (main.1 (1, 2, 0) (by decide)).2,
    main.2 0 [1] [1] [1] [1] "C0" "SNIa" none
      (setAllAlpha (0.3 : ℚ) (errorbarArtists 0 true true).bars)
      (errorbarArtists 0 true true).caps
      (List.mem_cons_of_mem _ (List.mem_singleton_self _))⟩

/-! ## Claim C6: error-bar bar and cap artists at 30% opacity -/

/-- C6: every error-bar command drawn by `plot_representation` has all of
its bar artists and all of its cap artists at alpha `0.3`, whatever the
marker opacity.  (With the default `capsize` of 0 the cap artist list is
empty, so the cap half holds vacuously; the source sets only the bars.) -/
theorem C6_errorbar_artists_alpha {preds : List RepRow} {pl : List String}
    {mask : Option (List Bool)} {i1 i2 : Nat} {i3 : Option Nat} {mc : Nat} {ax : Bool}
    {cmds : List RepCmd}
    (h : plot_representation preds pl mask i1 i2 i3 mc ax = .ok cmds) :
    ∀ cmd ∈ cmds, ∀ axId x y xe ye color lb ma ba ca,
      cmd = RepCmd.errorbarC3 axId x y xe ye color lb ma ba ca →
      (∀ a ∈ ba, a = some (0.3 : ℚ)) ∧ ∀ a ∈ ca, a = some (0.3 : ℚ) := by
  obtain ⟨ls, hls, rfl⟩ := plot_representation_ok_panels h
  intro cmd hmem axId x y xe ye color lb ma ba ca hceq
  subst hceq
  obtain ⟨sub, hsubmem, hcmdmem⟩ := List.mem_flatten.mp hmem
  obtain ⟨pv, hpv, hpok⟩ := mapExcept_ok_rev hls sub hsubmem
  obtain ⟨cls, hcls, rfl⟩ := panelCmds_ok_cls hpok
  rcases List.mem_append.mp hcmdmem with hm | hm
  · cases mask with
    | none => simp [maskScatter] at hm
    | some mk => simp [maskScatter] at hm
  · obtain ⟨tn, htn, hcok⟩ := mapExcept_ok_rev hcls _ hm
    obtain ⟨color', hlook, heq⟩ := classCmd_ok hcok
    injection heq with _ _ _ _ _ _ _ _ hba hca
    subst hba
    subst hca
    constructor
    · intro a hamem
      simp [setAllAlpha, errorbarArtists] at hamem
      exact hamem
    · intro a hamem
      simp [errorbarArtists] at hamem

/-- Concrete table for the C6 witness. -/
def predsC6 : List RepRow := [⟨"SNII", fun _ => 4, fun _ => 5⟩]

/-- The single command `plot_representation` issues for `predsC6`. -/
def outC6 : List RepCmd :=
  [RepCmd.errorbarC3 0 [4] [4] [5] [5] "C1" "SNII" none
    (setAllAlpha (0.3 : ℚ) (errorbarArtists 0 true true).bars)
    (errorbarArtists 0 true true).caps]

/-- Witness for C6 at a concrete input. -/
theorem C6_witness :
    (∀ a ∈ setAllAlpha (0.3 : ℚ) (errorbarArtists 0 true true).bars,
      a = some (0.3 : ℚ))
    ∧ ∀ a ∈ (errorbarArtists 0 true true).caps, a = some (0.3 : ℚ) :=
  C6_errorbar_artists_alpha
    (h := (rfl : plot_representation predsC6 ["SNII"] none 1 2 none 1000 false
      = .ok outC6))
    (RepCmd.errorbarC3 0 [4] [4] [5] [5] "C1" "SNII" none
      (setAllAlpha (0.3 : ℚ) (errorbarArtists 0 true true).bars)
      (errorbarArtists 0 true true).caps)
    (List.mem_singleton_self _) 0 [4] [4] [5] [5] "C1" "SNII" none
    (setAllAlpha (0.3 : ℚ) (errorbarArtists 0 true true).bars)
    (errorbarArtists 0 true true).caps rfl

/-! ## Lemmas about the light-curve command list -/

theorem ylims_append (l₁ l₂ : List PlotCmd) :
    ylims (l₁ ++ l₂) = ylims l₁ ++ ylims l₂ :=
  List.filterMap_append _ _ _

theorem ylims_obsCmds (o : List Obs) : ylims (obsCmds o) = [] := by
  rw [ylims, obsCmds, List.filterMap_map]
  exact List.filterMap_eq_nil_iff.mpr (fun a _ => rfl)

theorem ylims_bandModelCmds (m : Model) (count : Nat) (sub : Bool) (p : ℚ)
    (lab : Option String) (idx : Nat) :
    ylims (bandModelCmds m count sub p lab idx) = [] := by
  by_cases h0 : count = 0
  · simp [bandModelCmds, h0, ylims]
  · cases hs : sub
    · simp only [bandModelCmds, h0, hs, if_false, Bool.false_eq_true]
      rw [ylims, List.filterMap_map]
      exact List.filterMap_eq_nil_iff.mpr (fun a _ => rfl)
    · simp [bandModelCmds, h0, hs, ylims]

theorem ylims_modelCmds (m : Model) (count : Nat) (sub : Bool) (p : ℚ) :
    ∀ (l : List (Nat × String)) (flag : Bool),
      ylims (modelCmds m count sub p l flag) = [] := by
  intro l
  induction l with
  | nil => intro flag; rfl
  | cons q rest ih =>
    intro flag
    rw [modelCmds, ylims_append, ylims_bandModelCmds, ih]
    rfl

theorem legendLabels_append (l₁ l₂ : List PlotCmd) :
    legendLabels (l₁ ++ l₂) = legendLabels l₁ ++ legendLabels l₂ :=
  List.filterMap_append _ _ _

theorem legendLabels_obsCmds (o : List Obs) :
    legendLabels (obsCmds o) = usedBandpasses o := by
  rw [legendLabels, obsCmds, List.filterMap_map, usedBandpasses]
  induction drawnGroups o with
  | nil => rfl
  | cons g t ih => simp [List.filterMap_cons, Function.comp, cmdLabel, ih]

theorem legendLabels_bandModelCmds (m : Model) (count : Nat) (sub : Bool) (p : ℚ)
    (lab : Option String) (idx : Nat) :
    legendLabels (bandModelCmds m count sub p lab idx) =
      if count = 0 ∨ sub = true then lab.toList else [] := by
  by_cases h0 : count = 0
  · simp only [bandModelCmds, h0, if_true, eq_self_iff_true, true_or]
    cases lab <;> simp [legendLabels, cmdLabel]
  · cases hs : sub
    · simp only [bandModelCmds, h0, hs, if_false, Bool.false_eq_true, or_false]
      rw [legendLabels, List.filterMap_map]
      exact List.filterMap_eq_nil_iff.mpr (fun a _ => rfl)
    · simp only [bandModelCmds, h0, hs, if_false, if_true, or_true]
      cases lab <;> simp [legendLabels, cmdLabel]

theorem legendLabels_modelCmds_false (m : Model) (count : Nat) (sub : Bool) (p : ℚ) :
    ∀ l : List (Nat × String),
      legendLabels (modelCmds m count sub p l false) = [] := by
  intro l
  induction l with
  | nil => rfl
  | cons q rest ih =>
    rw [modelCmds, legendLabels_append, legendLabels_bandModelCmds, ih]
    simp

theorem legendLabels_modelCmds_true (m : Model) (count : Nat) (sub : Bool) (p : ℚ)
    (hmode : count = 0 ∨ sub = true) (q : Nat × String) (rest : List (Nat × String)) :
    legendLabels (modelCmds m count sub p (q :: rest) true) = ["ParSNIP Model"] := by
  rw [modelCmds, legendLabels_append, legendLabels_bandModelCmds,
    legendLabels_modelCmds_false]
  simp [hmode]

theorem insertSortedStr_perm (x : String) (l : List String) :
    (insertSortedStr x l).Perm (x :: l) := by
  induction l with
  | nil => exact List.Perm.refl _
  | cons y t ih =>
    rw [insertSortedStr]
    by_cases h : x ≤ y
    · rw [if_pos h]
    · rw [if_neg h]
      exact List.Perm.trans (List.Perm.cons y ih) (List.Perm.swap x y t)

theorem sortStr_perm (l : List String) : (sortStr l).Perm l := by
  induction l with
  | nil => exact List.Perm.refl _
  | cons x t ih =>
    show (insertSortedStr x (sortStr t)).Perm (x :: t)
    exact List.Perm.trans (insertSortedStr_perm _ _) (List.Perm.cons x ih)

theorem sortStr_nodup {l : List String} (h : l.Nodup) : (sortStr l).Nodup :=
  ((sortStr_perm l).nodup_iff).mpr h

theorem usedBandpasses_nodup (o : List Obs) : (usedBandpasses o).Nodup := by
  rw [usedBandpasses, drawnGroups, groupByBand, List.filter_map, List.map_map]
  have hid : (Prod.fst ∘ fun b => (b, List.filter (fun ob => ob.band == b) o))
      = id := rfl
  rw [hid, List.map_id]
  exact List.Sublist.nodup (List.filter_sublist _)
    (sortStr_nodup (List.nodup_dedup _))

/-! ## Claim C1 (corrected): the y-limits after rendering with a model -/

/-- C1 counterexample inputs: one observation in band `g`. -/
def lcCX : LightCurve := ⟨[⟨0, "g", 1, 1⟩], true⟩

/-- C1 counterexample model: bands `g` and `i`, one draw; the unobserved
(hence not shown) band `i` carries the larger flux. -/
def mCX : Model := ⟨["g", "i"], [0], [], fun _ => [[[1], [10]]]⟩

/-- C1 is false as stated: in the raw-draw mode the source scales the
y-limits by `np.max(model_flux)` over the whole draws array — including
bands that are not shown — not by the maximum of the series actually
drawn across the shown bands.  Here the drawn series of the only shown
band has maximum 1, yet the y-limits are `(-2, 12)`, i.e. scaled by the
hidden band's maximum 10. -/
theorem C1_counterexample :
    lastYlim (plot_light_curve (fun lc => lc) lcCX (some mCX) 1 false false 68) ≠
      some ((-0.2 : ℚ) * specShownMax mCX 1 false
              (shownBandIdxs mCX
                (usedBandpasses (effectiveLC (fun lc => lc) lcCX true).obs) false),
            (1.2 : ℚ) * specShownMax mCX 1 false
              (shownBandIdxs mCX
                (usedBandpasses (effectiveLC (fun lc => lc) lcCX true).obs) false)) := by
  have h1 : lastYlim (plot_light_curve (fun lc => lc) lcCX (some mCX) 1 false false 68)
      = some ((-0.2 : ℚ) * 10, (1.2 : ℚ) * 10) := rfl
  have h2 : specShownMax mCX 1 false
      (shownBandIdxs mCX
        (usedBandpasses (effectiveLC (fun lc => lc) lcCX true).obs) false) = 1 := rfl
  rw [h1, h2]
  intro hEq
  injection hEq with hpair
  rw [Prod.mk.injEq] at hpair
  have := hpair.1
  norm_num at this

/-- C1 (amended): with a model supplied, the y-limits after rendering are
exactly `(-0.2*M, 1.2*M)`, where `M` is the maximum of `0` and the
per-band series maxima over the shown bands — and in the single-prediction
and uncertainty-band modes the per-band value is exactly the maximum of
the series drawn for that band, while in the raw-draw mode each shown
band contributes the maximum of the entire draws array (all bands, shown
or not). -/
theorem C1_ylim_amended (pre : LightCurve → LightCurve) (lc0 : LightCurve)
    (m : Model) (count : Nat) (sub smb : Bool) (p : ℚ) :
    lastYlim (plot_light_curve pre lc0 (some m) count sub smb p) =
      some ((-0.2 : ℚ) * maxModel m count sub
              (shownBandIdxs m (usedBandpasses (effectiveLC pre lc0 true).obs) smb),
            (1.2 : ℚ) * maxModel m count sub
              (shownBandIdxs m (usedBandpasses (effectiveLC pre lc0 true).obs) smb))
    ∧ ∀ idx, count = 0 ∨ sub = true →
        bandMaxModel m count sub idx = specSeriesMax m count sub idx := by
  constructor
  · simp only [plot_light_curve, Option.isSome_some, lastYlim]
    rw [ylims_append, ylims_append, ylims_obsCmds, ylims_modelCmds]
    rfl
  · intro idx h
    rcases h with h0 | hs
    · rw [bandMaxModel, specSeriesMax, if_pos h0, if_pos h0]
    · by_cases h0 : count = 0
      · rw [bandMaxModel, specSeriesMax, if_pos h0, if_pos h0]
      · rw [bandMaxModel, specSeriesMax, if_neg h0, if_neg h0, hs]
        simp

/-- C2 witness model: one band, two draws, two timesteps. -/
def mW : Model := ⟨["g"], [0, 1], [], fun _ => [[[1, 5]], [[3, 7]]]⟩

/-- Witness for the amended C1 at concrete inputs, in the raw-draw mode
for the y-limit formula and in the band modes for the per-band scale. -/
theorem C1_witness :
    lastYlim (plot_light_curve (fun lc => lc) lcCX (some mCX) 1 false false 68) =
      some ((-0.2 : ℚ) * maxModel mCX 1 false
              (shownBandIdxs mCX
                (usedBandpasses (effectiveLC (fun lc => lc) lcCX true).obs) false),
            (1.2 : ℚ) * maxModel mCX 1 false
              (shownBandIdxs mCX
                (usedBandpasses (effectiveLC (fun lc => lc) lcCX true).obs) false))
    ∧ bandMaxModel mW 2 true 0 = specSeriesMax mW 2 true 0 :=
  ⟨(C1_ylim_amended (fun lc => lc) lcCX mCX 1 false false 68).1,
   (C1_ylim_amended (fun lc => lc) lcCX mW 2 true false 68).2 0 (Or.inr rfl)⟩

/-! ## Claim C5 (corrected): legend contents with a model -/

/-- C5 counterexample model: a single band `g`, one draw. -/
def mCX5 : Model := ⟨["g"], [0], [], fun _ => [[[1]]]⟩

/-- C5 is false as stated: in the raw-draw overlay mode (`count > 0`,
uncertainty bands disabled) the source never passes the model label to
`ax.plot`, so the legend contains no `'ParSNIP Model'` entry at all. -/
theorem C5_counterexample :
    ¬ (legendLabels
        (plot_light_curve (fun lc => lc) lcCX (some mCX5) 1 false false 68)).count
        "ParSNIP Model" = 1 := by
  have h : legendLabels
      (plot_light_curve (fun lc => lc) lcCX (some mCX5) 1 false false 68) = ["g"] := rfl
  rw [h]
  decide

/-- C5 (amended): with a model supplied, in the single-prediction mode
(`count = 0`) or the uncertainty-band mode, provided at least one model
band is shown and no observed band is itself named `'ParSNIP Model'`, the
legend is exactly the drawn band labels — each exactly once — followed by
exactly one `'ParSNIP Model'` entry.  In the raw-draw overlay mode no
model label is added. -/
theorem C5_legend_amended (pre : LightCurve → LightCurve) (lc0 : LightCurve)
    (m : Model) (count : Nat) (sub smb : Bool) (p : ℚ)
    (hmode : count = 0 ∨ sub = true)
    (hshown : shownBandIdxs m (usedBandpasses (effectiveLC pre lc0 true).obs) smb ≠ [])
    (hname : "ParSNIP Model" ∉ usedBandpasses (effectiveLC pre lc0 true).obs) :
    legendLabels (plot_light_curve pre lc0 (some m) count sub smb p)
        = usedBandpasses (effectiveLC pre lc0 true).obs ++ ["ParSNIP Model"]
    ∧ (usedBandpasses (effectiveLC pre lc0 true).obs).Nodup
    ∧ (legendLabels (plot_light_curve pre lc0 (some m) count sub smb p)).count
        "ParSNIP Model" = 1
    ∧ ∀ b ∈ usedBandpasses (effectiveLC pre lc0 true).obs,
        (legendLabels (plot_light_curve pre lc0 (some m) count sub smb p)).count b
          = 1 := by
  obtain ⟨q, rest, hqr⟩ : ∃ q rest,
      shownBandIdxs m (usedBandpasses (effectiveLC pre lc0 true).obs) smb
        = q :: rest := by
    cases hs : shownBandIdxs m (usedBandpasses (effectiveLC pre lc0 true).obs) smb with
    | nil => exact absurd hs hshown
    | cons q rest => exact ⟨q, rest, rfl⟩
  have hleg : legendLabels (plot_light_curve pre lc0 (some m) count sub smb p)
      = usedBandpasses (effectiveLC pre lc0 true).obs ++ ["ParSNIP Model"] := by
    simp only [plot_light_curve, Option.isSome_some]
    rw [hqr, legendLabels_append, legendLabels_append, legendLabels_obsCmds,
      legendLabels_modelCmds_true m count sub p hmode q rest]
    simp [legendLabels, cmdLabel]
  refine ⟨hleg, usedBandpasses_nodup _, ?_, ?_⟩
  · rw [hleg, List.count_append,
      List.count_eq_zero_of_not_mem hname]
    rfl
  · intro b hb
    have hbne : ("ParSNIP Model" : String) ≠ b := by
      intro hEq
      exact hname (hEq ▸ hb)
    rw [hleg, List.count_append,
      List.count_eq_one_of_mem (usedBandpasses_nodup _) hb]
    have hbm : b ∉ ["ParSNIP Model"] := by
      simp only [List.mem_singleton]
      intro hEq
      exact hbne hEq.symm
    rw [List.count_eq_zero_of_not_mem hbm]

/-- C5 witness model: one band `g` observed and predicted, single
prediction mode. -/
def mCX5b : Model := ⟨["g"], [0, 1], [[2, 3]], fun _ => []⟩

/-- Witness for the amended C5 at a concrete input. -/
theorem C5_witness :
    legendLabels (plot_light_curve (fun lc => lc) lcCX (some mCX5b) 0 true false 68)
        = usedBandpasses (effectiveLC (fun lc => lc) lcCX true).obs
          ++ ["ParSNIP Model"]
    ∧ (usedBandpasses (effectiveLC (fun lc => lc) lcCX true).obs).Nodup
    ∧ (legendLabels
        (plot_light_curve (fun lc => lc) lcCX (some mCX5b) 0 true false 68)).count
        "ParSNIP Model" = 1
    ∧ (legendLabels
        (plot_light_curve (fun lc => lc) lcCX (some mCX5b) 0 true false 68)).count
        "g" = 1 :=
  have h := C5_legend_amended (fun lc => lc) lcCX mCX5b 0 true false 68
    (Or.inl rfl) (by decide) (by decide)
  ⟨h.1, h.2.1, h.2.2.1, h.2.2.2 "g" (by decide)⟩

/-! ## Claim C2: median and percentile bands -/

theorem mem_modelCmds_bands (m : Model) (count : Nat) (p : ℚ) {idx : Nat}
    {b : String} :
    ∀ (l : List (Nat × String)) (flag : Bool), (idx, b) ∈ l → count ≠ 0 →
      ∃ lab,
        PlotCmd.lineC m.predTimes (reduceAxis0 npMedian (bandColumn m count idx)) lab
          ∈ modelCmds m count true p l flag
        ∧ PlotCmd.fillC m.predTimes
            (reduceAxis0 (npPercentile ((100 - p) / 2)) (bandColumn m count idx))
            (reduceAxis0 (npPercentile (100 - (100 - p) / 2)) (bandColumn m count idx))
          ∈ modelCmds m count true p l flag := by
  intro l
  induction l with
  | nil => intro flag h _; cases h
  | cons q rest ih =>
    intro flag hmem hc
    rw [modelCmds]
    rcases List.mem_cons.mp hmem with hq | hrest
    · subst hq
      refine ⟨if flag then some "ParSNIP Model" else none, ?_, ?_⟩
      · refine List.mem_append.mpr (Or.inl ?_)
        simp only [bandModelCmds, if_neg hc, if_pos rfl]
        exact List.mem_cons_self _ _
      · refine List.mem_append.mpr (Or.inl ?_)
        simp only [bandModelCmds, if_neg hc, if_pos rfl]
        exact List.mem_cons_of_mem _ (List.mem_singleton_self _)
    · obtain ⟨lab, h1, h2⟩ := ih false hrest hc
      exact ⟨lab, List.mem_append.mpr (Or.inr h1), List.mem_append.mpr (Or.inr h2)⟩

/-- C2: with `count > 0` and uncertainty bands enabled, for every shown
band the central curve drawn is the per-timestep median of the draws
along the draw axis, and the shaded region runs between the
`(100-percentile)/2` and `100-(100-percentile)/2` percentiles of the
draws; `plot_spectrum` draws its band with the same median and percentile
expressions, the axis-0 reductions are per-timestep (per-wavelength)
applications of the 1-d statistic to the draw columns, and `percentile
= 68` yields the 16th and 84th percentiles. -/
theorem C2_percentile_bands :
    (∀ (pre : LightCurve → LightCurve) (lc0 : LightCurve) (m : Model) (count : Nat)
        (smb : Bool) (p : ℚ) (idx : Nat) (b : String),
      count ≠ 0 →
      (idx, b) ∈ shownBandIdxs m (usedBandpasses (effectiveLC pre lc0 true).obs) smb →
      ∃ lab,
        PlotCmd.lineC m.predTimes (reduceAxis0 npMedian (bandColumn m count idx)) lab
          ∈ plot_light_curve pre lc0 (some m) count true smb p
        ∧ PlotCmd.fillC m.predTimes
            (reduceAxis0 (npPercentile ((100 - p) / 2)) (bandColumn m count idx))
            (reduceAxis0 (npPercentile (100 - (100 - p) / 2)) (bandColumn m count idx))
          ∈ plot_light_curve pre lc0 (some m) count true smb p)
    ∧ (∀ (wave single : List ℚ) (multi : List (List ℚ)) (count : Nat) (p : ℚ)
        (lab : Option String), count ≠ 0 →
        plot_spectrum wave single multi count true p lab =
          [PlotCmd.lineC wave (reduceAxis0 npMedian multi) lab,
           PlotCmd.fillC wave (reduceAxis0 (npPercentile ((100 - p) / 2)) multi)
             (reduceAxis0 (npPercentile (100 - (100 - p) / 2)) multi)])
    ∧ (∀ (mm : List (List ℚ)) (f : List ℚ → ℚ) (t : Nat),
        t < (mm.headD []).length →
        (reduceAxis0 f mm).getD t 0 = f (mm.map (fun r => r.getD t 0)))
    ∧ ((100 : ℚ) - 68) / 2 = 16 ∧ (100 : ℚ) - (100 - 68) / 2 = 84 := by
  refine ⟨?_, ?_, ?_, by norm_num, by norm_num⟩
  · intro pre lc0 m count smb p idx b hc hmem
    obtain ⟨lab, h1, h2⟩ := mem_modelCmds_bands m count p _ true hmem hc
    refine ⟨lab, ?_, ?_⟩
    · simp only [plot_light_curve, Option.isSome_some, List.mem_append]
      exact Or.inl (Or.inr h1)
    · simp only [plot_light_curve, Option.isSome_some, List.mem_append]
      exact Or.inl (Or.inr h2)
  · intro wave single multi count p lab hc
    simp [plot_spectrum, hc]
  · intro mm f t ht
    have hlen : t < ((List.range ((mm.headD []).length)).map
        (fun s => f (mm.map (fun r => r.getD s 0)))).length := by
      simpa using ht
    rw [reduceAxis0, List.getD_eq_getElem _ _ hlen]
    simp

/-- Witness for C2 at a concrete input. -/
theorem C2_witness :
    (∃ lab, PlotCmd.lineC mW.predTimes (reduceAxis0 npMedian (bandColumn mW 2 0)) lab
        ∈ plot_light_curve (fun lc => lc) lcCX (some mW) 2 true false 68
      ∧ PlotCmd.fillC mW.predTimes
          (reduceAxis0 (npPercentile ((100 - 68) / 2)) (bandColumn mW 2 0))
          (reduceAxis0 (npPercentile (100 - (100 - 68) / 2)) (bandColumn mW 2 0))
        ∈ plot_light_curve (fun lc => lc) lcCX (some mW) 2 true false 68)
    ∧ plot_spectrum [0] [] [[1], [3]] 2 true 68 none =
        [PlotCmd.lineC [0] (reduceAxis0 npMedian [[1], [3]]) none,
         PlotCmd.fillC [0] (reduceAxis0 (npPercentile ((100 - 68) / 2)) [[1], [3]])
           (reduceAxis0 (npPercentile (100 - (100 - 68) / 2)) [[1], [3]])]
    ∧ (reduceAxis0 npMedian [[1], [3]]).getD 0 0
        = npMedian ([[1], [3]].map (fun r => r.getD 0 0)) :=
  ⟨C2_percentile_bands.1 (fun lc => lc) lcCX mW 2 false 68 0 "g" (by decide) (by decide),
   C2_percentile_bands.2.1 [0] [] [[1], [3]] 2 68 none (by decide),
   C2_percentile_bands.2.2.1 [[1], [3]] npMedian 0 (by decide)⟩

/-! ## Claim C3: one-vs-rest collapsing and argmax predictions -/

/-- C3: the true labels are collapsed to `'Other'`-vs-target exactly when
the classification table has two columns with the first literally
`'Other'` (and are used unchanged otherwise), the matrix is computed from
those collapsed labels and has one row and one column per class name, and
each predicted label is an argmax class of its score row. -/
theorem C3_collapse_and_argmax (labels cols : List String) (scores : List (List ℚ)) :
    ((cols.length = 2 ∧ cols.getD 0 "" = "Other") →
      (plot_confusion_matrix labels cols scores).usedLabels
        = labels.map (fun l => if l = cols.getD 1 "" then l else "Other"))
    ∧ (¬(cols.length = 2 ∧ cols.getD 0 "" = "Other") →
      (plot_confusion_matrix labels cols scores).usedLabels = labels)
    ∧ (plot_confusion_matrix labels cols scores).matrix
        = confusionMatrixNorm (plot_confusion_matrix labels cols scores).usedLabels
            (plot_confusion_matrix labels cols scores).preds cols
    ∧ (plot_confusion_matrix labels cols scores).matrix.length = cols.length
    ∧ (∀ row ∈ (plot_confusion_matrix labels cols scores).matrix,
        row.length = cols.length)
    ∧ ∀ (i : Nat) (r : List ℚ), r = scores.getD i [] → r ≠ [] → i < scores.length →
        ∃ j, j < r.length
          ∧ (plot_confusion_matrix labels cols scores).preds.getD i "" = cols.getD j ""
          ∧ ∀ k, k < r.length → r.getD k 0 ≤ r.getD j 0 := by
  have husl : (plot_confusion_matrix labels cols scores).usedLabels
      = if cols.length = 2 ∧ cols.getD 0 "" = "Other" then
          labels.map (fun l => if l = cols.getD 1 "" then l else "Other")
        else labels := rfl
  refine ⟨?_, ?_, rfl, ?_, ?_, ?_⟩
  · intro h; rw [husl, if_pos h]
  · intro h; rw [husl, if_neg h]
  · have : (plot_confusion_matrix labels cols scores).matrix
        = cols.map (fun a => cmNormRow
            ((plot_confusion_matrix labels cols scores).usedLabels.zip
              ((plot_confusion_matrix labels cols scores).preds)) cols a) := rfl
    rw [this, List.length_map]
  · intro row hrow
    have : (plot_confusion_matrix labels cols scores).matrix
        = cols.map (fun a => cmNormRow
            ((plot_confusion_matrix labels cols scores).usedLabels.zip
              ((plot_confusion_matrix labels cols scores).preds)) cols a) := rfl
    rw [this] at hrow
    obtain ⟨a, _, rfl⟩ := List.mem_map.mp hrow
    rw [cmNormRow, List.length_map, cmRowCounts, List.length_map]
  · intro i r hr hrne hi
    have hpd : (plot_confusion_matrix labels cols scores).preds
        = scores.map (idxmaxRow cols) := rfl
    have hgetd : (scores.map (idxmaxRow cols)).getD i "" = idxmaxRow cols r := by
      rw [List.getD_eq_getElem _ _ (by simpa using hi), List.getElem_map, hr,
        List.getD_eq_getElem _ _ hi]
    have hex : ∃ v ∈ r, (fun v => decide (v = npMax r)) v = true :=
      ⟨npMax r, npMax_mem hrne, by simp⟩
    have hfi : r.findIdx (fun v => decide (v = npMax r)) < r.length :=
      List.findIdx_lt_length_of_exists hex
    refine ⟨r.findIdx (fun v => decide (v = npMax r)), hfi, ?_, ?_⟩
    · rw [hpd, hgetd, idxmaxRow]
    · intro k hk
      have hj : r.getD (r.findIdx (fun v => decide (v = npMax r))) 0 = npMax r := by
        rw [List.getD_eq_getElem _ _ hfi]
        exact of_decide_eq_true (List.findIdx_getElem (w := hfi))
      rw [hj, List.getD_eq_getElem _ _ hk]
      exact le_npMax (List.getElem_mem hk)

/-- Witness for C3 at a concrete one-vs-rest input. -/
theorem C3_witness :
    (plot_confusion_matrix ["SNIa", "SNII"] ["Other", "SNIa"] [[1, 2], [3, 1]]).usedLabels
      = ["SNIa", "SNII"].map
          (fun l => if l = ["Other", "SNIa"].getD 1 "" then l else "Other")
    ∧ ∃ j, j < ([1, 2] : List ℚ).length
        ∧ (plot_confusion_matrix ["SNIa", "SNII"] ["Other", "SNIa"]
            [[1, 2], [3, 1]]).preds.getD 0 "" = ["Other", "SNIa"].getD j ""
        ∧ ∀ k, k < ([1, 2] : List ℚ).length →
            ([1, 2] : List ℚ).getD k 0 ≤ ([1, 2] : List ℚ).getD j 0 :=
  ⟨(C3_collapse_and_argmax ["SNIa", "SNII"] ["Other", "SNIa"] [[1, 2], [3, 1]]).1
      (by decide),
   (C3_collapse_and_argmax ["SNIa", "SNII"] ["Other", "SNIa"] [[1, 2], [3, 1]]).2.2.2.2.2
      0 [1, 2] rfl (by decide) (by decide)⟩

/-! ## Claim C7: rows of the normalized matrix sum to 1 -/

theorem sum_map_add {α : Type _} (l : List α) (f g : α → Nat) :
    (l.map (fun b => f b + g b)).sum = (l.map f).sum + (l.map g).sum := by
  induction l with
  | nil => rfl
  | cons x t ih =>
    simp only [List.map_cons, List.sum_cons, ih]
    omega

theorem sum_map_ite_count {x : String} {cols : List String} (hnd : cols.Nodup)
    (hx : x ∈ cols) :
    (cols.map (fun b => if x = b then (1 : Nat) else 0)).sum = 1 := by
  induction cols with
  | nil => cases hx
  | cons c t ih =>
    rcases List.mem_cons.mp hx with rfl | hxt
    · have hnt : x ∉ t := (List.nodup_cons.mp hnd).1
      simp only [List.map_cons, List.sum_cons, if_pos rfl]
      have hz : (t.map (fun b => if x = b then (1 : Nat) else 0)).sum = 0 := by
        apply List.sum_eq_zero
        intro y hy
        obtain ⟨b, hb, rfl⟩ := List.mem_map.mp hy
        rw [if_neg]
        intro hEq
        exact hnt (hEq ▸ hb)
      rw [hz]
      simp
    · have hne : x ≠ c := by
        intro hEq
        exact (List.nodup_cons.mp hnd).1 (hEq ▸ hxt)
      simp only [List.map_cons, List.sum_cons, if_neg hne]
      rw [ih (List.nodup_cons.mp hnd).2 hxt]

theorem cmCountP_cons (pr : String × String) (pairs : List (String × String))
    (a b : String) :
    cmCountP (pr :: pairs) a b
      = cmCountP pairs a b + (if pr.1 = a ∧ pr.2 = b then 1 else 0) := by
  rw [cmCountP, cmCountP, List.filter_cons]
  by_cases h1 : pr.1 = a <;> by_cases h2 : pr.2 = b <;>
    simp [h1, h2]

theorem rowCounts_sum (cols : List String) (hnd : cols.Nodup) (a : String) :
    ∀ pairs : List (String × String), (∀ pr ∈ pairs, pr.2 ∈ cols) →
      (cmRowCounts pairs cols a).sum
        = (pairs.filter (fun pr => pr.1 == a)).length := by
  intro pairs
  induction pairs with
  | nil =>
    intro _
    rw [cmRowCounts]
    apply List.sum_eq_zero
    intro y hy
    obtain ⟨b, _, rfl⟩ := List.mem_map.mp hy
    rfl
  | cons pr t ih =>
    intro hmem
    have ht : ∀ x ∈ t, x.2 ∈ cols := fun x hx => hmem x (List.mem_cons_of_mem _ hx)
    have hhd : pr.2 ∈ cols := hmem pr (List.mem_cons_self _ _)
    have hsplit : (cmRowCounts (pr :: t) cols a).sum
        = (cmRowCounts t cols a).sum
          + (cols.map (fun b => if pr.1 = a ∧ pr.2 = b then (1 : Nat) else 0)).sum := by
      rw [cmRowCounts, cmRowCounts]
      rw [show (cols.map (cmCountP (pr :: t) a))
          = cols.map (fun b => cmCountP t a b + (if pr.1 = a ∧ pr.2 = b then 1 else 0))
        from List.map_congr_left (fun b _ => cmCountP_cons pr t a b)]
      exact sum_map_add cols _ _
    rw [hsplit, ih ht, List.filter_cons]
    by_cases h1 : pr.1 = a
    · have hone : (cols.map (fun b => if pr.1 = a ∧ pr.2 = b then (1 : Nat) else 0)).sum
          = 1 := by
        rw [show (cols.map (fun b => if pr.1 = a ∧ pr.2 = b then (1 : Nat) else 0))
            = cols.map (fun b => if pr.2 = b then (1 : Nat) else 0)
          from List.map_congr_left (fun b _ => by simp [h1])]
        exact sum_map_ite_count hnd hhd
      rw [hone]
      simp [h1]
    · have hzero : (cols.map (fun b => if pr.1 = a ∧ pr.2 = b then (1 : Nat) else 0)).sum
          = 0 := by
        apply List.sum_eq_zero
        intro y hy
        obtain ⟨b, _, rfl⟩ := List.mem_map.mp hy
        simp [h1]
      rw [hzero]
      simp [h1]

theorem sum_map_div_rat (l : List Nat) (T : ℚ) :
    (l.map (fun (c : Nat) => (c : ℚ) / T)).sum = ((l.sum : Nat) : ℚ) / T := by
  induction l with
  | nil => simp
  | cons x t ih =>
    rw [List.map_cons, List.sum_cons, ih, List.sum_cons]
    push_cast
    rw [add_div]

/-- C7: for a nonempty input whose set of (collapsed) true labels equals
the set of class names, every row of the row-normalized confusion matrix
sums to exactly 1. -/
theorem C7_rows_sum_to_one (labels cols : List String) (scores : List (List ℚ))
    (hnd : cols.Nodup)
    (hlen : labels.length = scores.length)
    (hrows : ∀ r ∈ scores, r.length = cols.length ∧ r ≠ [])
    (hsub1 : ∀ c ∈ cols, c ∈ (plot_confusion_matrix labels cols scores).usedLabels)
    (hsub2 : ∀ c ∈ (plot_confusion_matrix labels cols scores).usedLabels, c ∈ cols) :
    ∀ row ∈ (plot_confusion_matrix labels cols scores).matrix, row.sum = 1 := by
  intro row hrow
  have hmtx : (plot_confusion_matrix labels cols scores).matrix
      = cols.map (fun a => cmNormRow
          ((plot_confusion_matrix labels cols scores).usedLabels.zip
            (scores.map (idxmaxRow cols))) cols a) := rfl
  rw [hmtx] at hrow
  obtain ⟨a, ha, rfl⟩ := List.mem_map.mp hrow
  have hpred_mem : ∀ pd ∈ scores.map (idxmaxRow cols), pd ∈ cols := by
    intro pd hpd
    obtain ⟨r, hr, rfl⟩ := List.mem_map.mp hpd
    obtain ⟨hrlen, hrne⟩ := hrows r hr
    rw [idxmaxRow]
    have hfi : r.findIdx (fun v => decide (v = npMax r)) < r.length :=
      List.findIdx_lt_length_of_exists ⟨npMax r, npMax_mem hrne, by simp⟩
    have hfi2 : r.findIdx (fun v => decide (v = npMax r)) < cols.length :=
      hrlen ▸ hfi
    rw [List.getD_eq_getElem _ _ hfi2]
    exact List.getElem_mem hfi2
  have hzip2 : ∀ pr ∈ (plot_confusion_matrix labels cols scores).usedLabels.zip
      (scores.map (idxmaxRow cols)), pr.2 ∈ cols :=
    fun pr hpr => hpred_mem pr.2 (List.of_mem_zip hpr).2
  have husl : (plot_confusion_matrix labels cols scores).usedLabels
      = if cols.length = 2 ∧ cols.getD 0 "" = "Other" then
          labels.map (fun l => if l = cols.getD 1 "" then l else "Other")
        else labels := rfl
  have hlen_used : (plot_confusion_matrix labels cols scores).usedLabels.length
      = scores.length := by
    rw [husl]
    split_ifs with h
    · rw [List.length_map, hlen]
    · exact hlen
  have hmap : ((plot_confusion_matrix labels cols scores).usedLabels.zip
      (scores.map (idxmaxRow cols))).map Prod.fst
      = (plot_confusion_matrix labels cols scores).usedLabels :=
    List.map_fst_zip _ _ (by rw [hlen_used, List.length_map])
  have ha_used : a ∈ (plot_confusion_matrix labels cols scores).usedLabels :=
    hsub1 a ha
  rw [← hmap] at ha_used
  obtain ⟨pr, hpr, hpr1⟩ := List.mem_map.mp ha_used
  have hpos : 0 < (((plot_confusion_matrix labels cols scores).usedLabels.zip
      (scores.map (idxmaxRow cols))).filter (fun pr => pr.1 == a)).length := by
    rw [← List.countP_eq_length_filter]
    exact List.countP_pos.mpr ⟨pr, hpr, by simp [hpr1]⟩
  rw [cmNormRow, sum_map_div_rat,
    rowCounts_sum cols hnd a _ hzip2]
  exact div_self (by exact_mod_cast hpos.ne')

/-- Witness for C7 at a concrete input: both rows of the matrix sum to 1. -/
theorem C7_witness :
    ((plot_confusion_matrix ["SNIa", "SNII"] ["SNIa", "SNII"]
        [[1, 0], [0, 1]]).matrix.getD 0 []).sum = 1
    ∧ ((plot_confusion_matrix ["SNIa", "SNII"] ["SNIa", "SNII"]
        [[1, 0], [0, 1]]).matrix.getD 1 []).sum = 1 :=
  have hthm := C7_rows_sum_to_one ["SNIa", "SNII"] ["SNIa", "SNII"] [[1, 0], [0, 1]]
    (by decide) (by decide) (by decide) (by decide) (by decide)
  have hm : (plot_confusion_matrix ["SNIa", "SNII"] ["SNIa", "SNII"]
      [[1, 0], [0, 1]]).matrix
      = [cmNormRow [("SNIa", "SNIa"), ("SNII", "SNII")] ["SNIa", "SNII"] "SNIa",
         cmNormRow [("SNIa", "SNIa"), ("SNII", "SNII")] ["SNIa", "SNII"] "SNII"] := rfl
  ⟨hthm _ (by rw [hm]; exact List.mem_cons_self _ _),
   hthm _ (by rw [hm]; exact List.mem_cons_of_mem _ (List.mem_singleton_self _))⟩

/-! ## Claim C4 (corrected): annotation text color threshold -/

theorem texts_eq (labels cols : List String) (scores : List (List ℚ)) :
    (plot_confusion_matrix labels cols scores).texts
      = ((List.range (plot_confusion_matrix labels cols scores).matrix.length).map
          (fun i => (List.range
              (((plot_confusion_matrix labels cols scores).matrix.getD i []).length)).map
            (fun j => (i, j,
              if ((plot_confusion_matrix labels cols scores).matrix.getD i []).getD j 0
                  > npMax (plot_confusion_matrix labels cols scores).matrix.flatten / 2
                then "white" else "black")))).flatten := rfl

theorem mem_texts_white (labels cols : List String) (scores : List (List ℚ))
    {i j : Nat}
    (hi : i < (plot_confusion_matrix labels cols scores).matrix.length)
    (hj : j < ((plot_confusion_matrix labels cols scores).matrix.getD i []).length)
    (hcond : ((plot_confusion_matrix labels cols scores).matrix.getD i []).getD j 0
      > npMax (plot_confusion_matrix labels cols scores).matrix.flatten / 2) :
    (i, j, "white") ∈ (plot_confusion_matrix labels cols scores).texts := by
  rw [texts_eq]
  refine List.mem_flatten.mpr ⟨_, List.mem_map.mpr ⟨i, List.mem_range.mpr hi, rfl⟩, ?_⟩
  refine List.mem_map.mpr ⟨j, List.mem_range.mpr hj, ?_⟩
  rw [if_pos hcond]

/-- C4 (amended): a cell's annotation is rendered white exactly when its
value exceeds half of the largest entry of the normalized matrix itself
(`cm.max()/2`) — not half of the colormap's maximum intensity. -/
theorem C4_text_color_amended (labels cols : List String) (scores : List (List ℚ))
    (i j : Nat) (c : String)
    (hmem : (i, j, c) ∈ (plot_confusion_matrix labels cols scores).texts) :
    c = "white" ↔
      ((plot_confusion_matrix labels cols scores).matrix.getD i []).getD j 0
        > npMax (plot_confusion_matrix labels cols scores).matrix.flatten / 2 := by
  rw [texts_eq] at hmem
  obtain ⟨sub, hsub, hmem2⟩ := List.mem_flatten.mp hmem
  obtain ⟨i', hi', rfl⟩ := List.mem_map.mp hsub
  obtain ⟨j', hj', heq⟩ := List.mem_map.mp hmem2
  obtain ⟨hii, hjj, hc⟩ : i' = i ∧ j' = j ∧
      (if ((plot_confusion_matrix labels cols scores).matrix.getD i' []).getD j' 0
          > npMax (plot_confusion_matrix labels cols scores).matrix.flatten / 2
        then "white" else "black") = c := by
    simpa [Prod.ext_iff] using heq
  rw [hii, hjj] at hc
  by_cases hcond : ((plot_confusion_matrix labels cols scores).matrix.getD i []).getD j 0
      > npMax (plot_confusion_matrix labels cols scores).matrix.flatten / 2
  · rw [if_pos hcond] at hc
    rw [← hc]
    exact ⟨fun _ => hcond, fun _ => rfl⟩
  · rw [if_neg hcond] at hc
    rw [← hc]
    constructor
    · intro hbw
      exact absurd hbw (by decide)
    · intro h
      exact absurd h hcond

/-- C4 counterexample inputs. -/
def labelsC4 : List String := ["A", "A", "B", "B"]

/-- C4 counterexample class names. -/
def colsC4 : List String := ["A", "B"]

/-- C4 counterexample score table, predicting `A, B, A, B`. -/
def scoresC4 : List (List ℚ) := [[1, 0], [0, 1], [1, 0], [0, 1]]

/-- The true/predicted label pairs produced for the C4 counterexample. -/
def pairsC4 : List (String × String) := [("A", "A"), ("A", "B"), ("B", "A"), ("B", "B")]

theorem matrixC4_eq : (plot_confusion_matrix labelsC4 colsC4 scoresC4).matrix
    = [[1/2, 1/2], [1/2, 1/2]] := by
  have hrows : (plot_confusion_matrix labelsC4 colsC4 scoresC4).matrix
      = [cmNormRow pairsC4 colsC4 "A", cmNormRow pairsC4 colsC4 "B"] := rfl
  have hrowA : cmNormRow pairsC4 colsC4 "A" = [1/2, 1/2] := by
    rw [cmNormRow, show cmRowCounts pairsC4 colsC4 "A" = [1, 1] from rfl]
    norm_num
  have hrowB : cmNormRow pairsC4 colsC4 "B" = [1/2, 1/2] := by
    rw [cmNormRow, show cmRowCounts pairsC4 colsC4 "B" = [1, 1] from rfl]
    norm_num
  rw [hrows, hrowA, hrowB]

/-- C4 is false as stated: with the colormap fixed at `vmin=0, vmax=1` the
claim's threshold is `1/2`, but the source uses `cm.max()/2`.  Here every
cell equals `1/2 ≤ 1/2`, so the claim renders all cells black, yet the
source renders cell `(0,0)` white because `1/2 > cm.max()/2 = 1/4`. -/
theorem C4_counterexample :
    ((0, 0, "white") ∈ (plot_confusion_matrix labelsC4 colsC4 scoresC4).texts)
    ∧ ¬ (((plot_confusion_matrix labelsC4 colsC4 scoresC4).matrix.getD 0 []).getD 0 0
        > (1 : ℚ) / 2) := by
  constructor
  · apply mem_texts_white
    · rw [matrixC4_eq]
      norm_num
    · rw [matrixC4_eq]
      norm_num
    · rw [matrixC4_eq]
      norm_num [npMax, max_def]
  · rw [matrixC4_eq]
    norm_num

/-- C4 witness inputs: labels `A, B` predicted `A, B`. -/
def labelsC4w : List String := ["A", "B"]

/-- C4 witness score table. -/
def scoresC4w : List (List ℚ) := [[1, 0], [0, 1]]

/-- The true/predicted label pairs produced for the C4 witness. -/
def pairsC4w : List (String × String) := [("A", "A"), ("B", "B")]

theorem matrixC4w_eq : (plot_confusion_matrix labelsC4w colsC4 scoresC4w).matrix
    = [[1, 0], [0, 1]] := by
  have hrows : (plot_confusion_matrix labelsC4w colsC4 scoresC4w).matrix
      = [cmNormRow pairsC4w colsC4 "A", cmNormRow pairsC4w colsC4 "B"] := rfl
  have hrowA : cmNormRow pairsC4w colsC4 "A" = [1, 0] := by
    rw [cmNormRow, show cmRowCounts pairsC4w colsC4 "A" = [1, 0] from rfl]
    norm_num
  have hrowB : cmNormRow pairsC4w colsC4 "B" = [0, 1] := by
    rw [cmNormRow, show cmRowCounts pairsC4w colsC4 "B" = [0, 1] from rfl]
    norm_num
  rw [hrows, hrowA, hrowB]

/-- Witness for the amended C4 at a concrete input: cell `(0,0)` holds 1,
above `cm.max()/2 = 1/2`, and is annotated white. -/
theorem C4_witness :
    ("white" : String) = "white" ↔
      ((plot_confusion_matrix labelsC4w colsC4 scoresC4w).matrix.getD 0 []).getD 0 0
        > npMax (plot_confusion_matrix labelsC4w colsC4 scoresC4w).matrix.flatten / 2 :=
  C4_text_color_amended labelsC4w colsC4 scoresC4w 0 0 "white"
    (mem_texts_white labelsC4w colsC4 scoresC4w
      (by rw [matrixC4w_eq]; norm_num)
      (by rw [matrixC4w_eq]; norm_num)
      (by rw [matrixC4w_eq]; norm_num [npMax, max_def]))
